import Mathlib

/-!
Verification development for the code-review-automation repository.

The Python sources are shallowly embedded: text is represented as
`List Char` (one `Line` per physical line of input), Python dicts of
structured data become Lean structures or association lists, Python sets
of line numbers become `Finset Nat`, and fallible lookups return
`Option`.  Loops whose Python form advances an index over a list are
embedded either structurally or with an explicit fuel argument that the
top-level entry points instantiate with more than the number of
remaining lines (each Python iteration consumes at least one line).
-/

/-- A line of text, as Python manipulates strings character-wise. -/
abbrev Line := List Char

/-- Embeds Python `str.split`, the splitting of `diff_text` on newline
characters: `"".split` gives one empty piece, and every newline starts a
fresh piece. -/
def splitLines : Line → List Line
  | [] => [[]]
  | c :: rest =>
      let r := splitLines rest
      if c = '\n' then [] :: r
      else (c :: r.headD []) :: r.tail

/-- Embeds Python `str.startswith` on decoded text. -/
def leadsWith (pre l : Line) : Bool := pre.isPrefixOf l

/-- Embeds the containment test `pat in line` used for `Binary files`. -/
def hasSub (pat : Line) : Line → Bool
  | [] => pat.isPrefixOf []
  | c :: rest => pat.isPrefixOf (c :: rest) || hasSub pat rest

/-- Embeds `re.search(tag + "(.+)", line)`: the capture group is the
text after the first occurrence of `tag` that is followed by at least
one character (the regexes `--- a/(.+)` and `\+\+\+ b/(.+)`). -/
def tagCapture (tag : Line) : Line → Option Line
  | [] => none
  | c :: rest =>
      if tag.isPrefixOf (c :: rest) ∧ (c :: rest).drop tag.length ≠ [] then
        some ((c :: rest).drop tag.length)
      else tagCapture tag rest

/-- Python whitespace class `\s` restricted to characters that can occur
inside one physical line. -/
def isPyWs (c : Char) : Bool :=
  c = ' ' ∨ c = '\t' ∨ c = '\r' ∨ c = '\x0b' ∨ c = '\x0c'

/-- The numeric value of a digit run, as Python `int` reads it. -/
def digitsVal (ds : List Char) : Nat :=
  ds.foldl (fun a c => a * 10 + (c.toNat - 48)) 0

/-- Splits a leading digit run from the rest of the line. -/
def takeDigits (l : Line) : List Char × Line :=
  (l.takeWhile Char.isDigit, l.dropWhile Char.isDigit)

/-- Embeds the optional group `(?:,(\d+))?` of the hunk-header regex: a
comma followed by a digit run is consumed, anything else is left in
place with no capture. -/
def optCommaDigits (l : Line) : Option Nat × Line :=
  match l with
  | ',' :: rest =>
      let (ds, r) := takeDigits rest
      if ds = [] then (none, l) else (some (digitsVal ds), r)
  | _ => (none, l)

/-- One anchored attempt of the hunk-header regex
`@@\s*-(\d+)(?:,(\d+))?\s+\+(\d+)(?:,(\d+))?\s*@@` at the start of `s`;
omitted counts default to 1 exactly as `_parse_hunk` does after the
match. -/
def hunkHeaderAt (s : Line) : Option (Nat × Nat × Nat × Nat) :=
  if leadsWith ("@@".data) s then
    let s1 := (s.drop 2).dropWhile isPyWs
    match s1 with
    | '-' :: s2 =>
        let (d1, s3) := takeDigits s2
        if d1 = [] then none else
        let (oc, s4) := optCommaDigits s3
        match s4 with
        | [] => none
        | c :: _ =>
          if isPyWs c then
            let s5 := s4.dropWhile isPyWs
            match s5 with
            | '+' :: s6 =>
              let (d3, s7) := takeDigits s6
              if d3 = [] then none else
              let (nc, s8) := optCommaDigits s7
              let s9 := s8.dropWhile isPyWs
              if leadsWith ("@@".data) s9 then
                some (digitsVal d1, oc.getD 1, digitsVal d3, nc.getD 1)
              else none
            | _ => none
          else none
    | _ => none
  else none

/-- Embeds `re.search` of the hunk-header regex: try every start
position left to right. -/
def hunkHeaderSearch : Line → Option (Nat × Nat × Nat × Nat)
  | [] => none
  | c :: rest =>
      match hunkHeaderAt (c :: rest) with
      | some r => some r
      | none => hunkHeaderSearch rest

/-- The greedy split of `t` as `(.+) b/(.+)`: group one takes the
longest prefix that still leaves ` b/` plus a nonempty remainder. -/
def lastBSplit (t : Line) : Option (Line × Line) :=
  let n := t.length
  let cands := (List.range n).filter
    (fun j => decide (1 ≤ j) && leadsWith (" b/".data) (t.drop j) && decide (j + 3 < n))
  match cands.getLast? with
  | some j => some (t.take j, t.drop (j + 3))
  | none => none

/-- One anchored attempt of `diff --git a/(.+) b/(.+)` at the start of
`s`. -/
def diffGitAt (s : Line) : Option (Line × Line) :=
  if leadsWith ("diff --git a/".data) s then lastBSplit (s.drop 13)
  else none

/-- Embeds `re.search(r"diff --git a/(.+) b/(.+)", line)`. -/
def diffGitSearch : Line → Option (Line × Line)
  | [] => none
  | c :: rest =>
      match diffGitAt (c :: rest) with
      | some r => some r
      | none => diffGitSearch rest

/-- `ChangeType` from `git/diff_parser.py`: context lines reuse the
`modified` member, exactly as the source does. -/
inductive ChangeType where
  | added
  | removed
  | modified
  | renamed
deriving DecidableEq

/-- `DiffLine` from `git/diff_parser.py`. -/
structure DiffLine where
  line_number : Nat
  old_line_number : Option Nat
  new_line_number : Option Nat
  content : Line
  change_type : ChangeType
deriving DecidableEq

/-- `DiffHunk` from `git/diff_parser.py`. -/
structure DiffHunk where
  old_start : Nat
  old_count : Nat
  new_start : Nat
  new_count : Nat
  lines : List DiffLine
  context : Line
deriving DecidableEq

/-- `FileDiff` from `git/diff_parser.py`. -/
structure FileDiff where
  old_path : Line
  new_path : Line
  change_type : ChangeType
  hunks : List DiffHunk
  added_lines : Nat := 0
  removed_lines : Nat := 0
  is_binary : Bool := false
deriving DecidableEq

/-- `GitDiffResult` from `git/diff_parser.py` (the commit fields stay
`None` on the parse path and are omitted). -/
structure GitDiffResult where
  files : List FileDiff
  total_added : Nat := 0
  total_removed : Nat := 0
deriving DecidableEq

/-- The hunk-content loop of `_parse_hunk` (lines 216-267): classify
each line by its first character, keep separate old/new counters, skip
empty strings, and stop at the next `@@` or `diff --git` header,
returning the unconsumed remainder. -/
def parse_hunk_lines (old_line new_line : Nat) :
    List Line → List DiffLine × List Line
  | [] => ([], [])
  | l :: rest =>
      if leadsWith ("@@".data) l || leadsWith ("diff --git".data) l then
        ([], l :: rest)
      else if l = [] then parse_hunk_lines old_line new_line rest
      else match l with
      | [] => ([], [])
      | c :: _ =>
        if c = '+' then
          let (ds, r) := parse_hunk_lines old_line (new_line + 1) rest
          ({ line_number := new_line, old_line_number := none,
             new_line_number := some new_line, content := l.drop 1,
             change_type := ChangeType.added } :: ds, r)
        else if c = '-' then
          let (ds, r) := parse_hunk_lines (old_line + 1) new_line rest
          ({ line_number := old_line, old_line_number := some old_line,
             new_line_number := none, content := l.drop 1,
             change_type := ChangeType.removed } :: ds, r)
        else
          let (ds, r) := parse_hunk_lines (old_line + 1) (new_line + 1) rest
          ({ line_number := new_line, old_line_number := some old_line,
             new_line_number := some new_line, content := l.drop 1,
             change_type := ChangeType.modified } :: ds, r)

/-- The hunks loop of `_parse_file_diff` (lines 160-164) together with
`_parse_hunk`: while the current line starts with `@@`, match the
header regex (a failed match consumes just that line), then consume the
hunk body.  The fuel argument stands for the loop's index bound; every
iteration consumes at least one line, so callers pass more fuel than
there are lines. -/
def parse_hunks : Nat → List Line → List DiffHunk × List Line
  | 0, ls => ([], ls)
  | _ + 1, [] => ([], [])
  | fuel + 1, l :: rest =>
      if leadsWith ("@@".data) l then
        match hunkHeaderSearch l with
        | none => parse_hunks fuel rest
        | some (os, oc, ns, nc) =>
            let (dls, r) := parse_hunk_lines os ns rest
            let (hs, r2) := parse_hunks fuel r
            ({ old_start := os, old_count := oc, new_start := ns,
               new_count := nc, lines := dls, context := l } :: hs, r2)
      else ([], l :: rest)

/-- State accumulated by the file-header scan of `_parse_file_diff`. -/
structure FileInfoState where
  old_path : Option Line
  new_path : Option Line
  change_type : ChangeType
  is_binary : Bool
deriving DecidableEq

/-- One step of the file-info scan (lines 131-157 of `diff_parser.py`):
the `elif` chain over mode lines, `---`/`+++` path lines, `/dev/null`
sentinels and the binary marker. -/
def update_file_info (st : FileInfoState) (l : Line) : FileInfoState :=
  if leadsWith ("new file mode".data) l then
    { st with change_type := ChangeType.added }
  else if leadsWith ("deleted file mode".data) l then
    { st with change_type := ChangeType.removed }
  else if leadsWith ("rename from".data) l then
    { st with change_type := ChangeType.renamed }
  else if leadsWith ("--- ".data) l then
    match tagCapture ("--- a/".data) l with
    | some p => { st with old_path := some p }
    | none =>
        if l = ("--- /dev/null".data) then
          { st with change_type := ChangeType.added }
        else st
  else if leadsWith ("+++ ".data) l then
    match tagCapture ("+++ b/".data) l with
    | some p => { st with new_path := some p }
    | none =>
        if l = ("+++ /dev/null".data) then
          { st with change_type := ChangeType.removed }
        else st
  else if hasSub ("Binary files".data) l then { st with is_binary := true }
  else st

/-- The file-info loop of `_parse_file_diff`: scan until the next hunk
or file header. -/
def scan_file_info (st : FileInfoState) :
    List Line → FileInfoState × List Line
  | [] => (st, [])
  | l :: rest =>
      if leadsWith ("@@".data) l || leadsWith ("diff --git".data) l then
        (st, l :: rest)
      else scan_file_info (update_file_info st l) rest

/-- The added-line count computed at the end of `_parse_file_diff`. -/
def count_added (hunks : List DiffHunk) : Nat :=
  (hunks.map (fun h =>
    (h.lines.filter (fun dl => decide (dl.change_type = ChangeType.added))).length)).sum

/-- The removed-line count computed at the end of `_parse_file_diff`. -/
def count_removed (hunks : List DiffHunk) : Nat :=
  (hunks.map (fun h =>
    (h.lines.filter (fun dl => decide (dl.change_type = ChangeType.removed))).length)).sum

/-- `_parse_file_diff` (lines 111-189): extract paths from the
`diff --git` header, scan file-info lines, parse hunks, and emit a
`FileDiff` only when both paths resolved to truthy (nonempty) strings;
otherwise the consumed section yields nothing. -/
def parse_file_diff (header : Line) (rest : List Line) :
    Option FileDiff × List Line :=
  let paths := diffGitSearch header
  let st0 : FileInfoState :=
    { old_path := paths.map Prod.fst, new_path := paths.map Prod.snd,
      change_type := ChangeType.modified, is_binary := false }
  let scanned := scan_file_info st0 rest
  let st := scanned.1
  let parsed := parse_hunks (scanned.2.length + 1) scanned.2
  let hunks := parsed.1
  let r2 := parsed.2
  match st.old_path, st.new_path with
  | some op, some np =>
      if op = [] ∨ np = [] then (none, r2)
      else
        (some { old_path := op, new_path := np,
                change_type := st.change_type, hunks := hunks,
                added_lines := count_added hunks,
                removed_lines := count_removed hunks,
                is_binary := st.is_binary }, r2)
  | _, _ => (none, r2)

/-- The outer loop of `parse_diff` (lines 89-99): skip anything that is
not a `diff --git` header, and keep only file sections that produced a
`FileDiff`. -/
def parse_diff_files : Nat → List Line → List FileDiff
  | 0, _ => []
  | _ + 1, [] => []
  | fuel + 1, l :: rest =>
      if leadsWith ("diff --git".data) l then
        match parse_file_diff l rest with
        | (some fd, r) => fd :: parse_diff_files fuel r
        | (none, r) => parse_diff_files fuel r
      else parse_diff_files fuel rest

/-- `parse_diff` (lines 75-109): split the raw text into lines, parse
file sections best-effort, and total the per-file counts. -/
def parse_diff (diff_text : String) : GitDiffResult :=
  let lines := splitLines diff_text.data
  let files := parse_diff_files (lines.length + 1) lines
  { files := files,
    total_added := (files.map FileDiff.added_lines).sum,
    total_removed := (files.map FileDiff.removed_lines).sum }

/-- One line of `get_changed_lines_for_file`'s accumulation: truthy
line numbers (present and nonzero) of added lines enter the added set,
of removed lines the removed set. -/
def changed_line_step (acc : Finset Nat × Finset Nat) (dl : DiffLine) :
    Finset Nat × Finset Nat :=
  if dl.change_type = ChangeType.added then
    match dl.new_line_number with
    | some n => if n ≠ 0 then (insert n acc.1, acc.2) else acc
    | none => acc
  else if dl.change_type = ChangeType.removed then
    match dl.old_line_number with
    | some n => if n ≠ 0 then (acc.1, insert n acc.2) else acc
    | none => acc
  else acc

/-- `get_changed_lines_for_file` (lines 280-300): fold the step over
every line of every hunk. -/
def get_changed_lines_for_file (fd : FileDiff) : Finset Nat × Finset Nat :=
  ((fd.hunks.map DiffHunk.lines).flatten).foldl changed_line_step (∅, ∅)

/-- An analyzer issue dict as produced by the checkers and consumed by
`_analyze_file_changes` via `issue.get` (the `get` defaults are folded
into the field defaults). -/
structure Issue where
  type : Line := "unknown".data
  severity : Line := "info".data
  message : Line := []
  line : Nat := 0
  suggestion : Line := []
  explanation : Option Line := none
deriving DecidableEq

/-- An analyzer suggestion dict; `_analyze_file_changes` adds the
`file` and `change_context` keys to surviving suggestions. -/
structure Suggestion where
  type : Line := []
  message : Line := []
  line : Nat := 0
  suggestion : Line := []
  file : Line := []
  change_context : Line := []
deriving DecidableEq

/-- The issue/suggestion payload of `core_analyzer.analyze_file`. -/
structure AnalysisResult where
  issues : List Issue
  suggestions : List Suggestion
deriving DecidableEq

/-- `FocusedIssue` from `git/focused_review.py`. -/
structure FocusedIssue where
  file_path : Line
  line_number : Nat
  old_line_number : Option Nat
  change_type : ChangeType
  issue_type : Line
  severity : Line
  message : Line
  suggestion : Line
  explanation : Option Line := none
  code_snippet : Option Line := none
deriving DecidableEq

/-- The `diff_summary` dict built by `analyze_diff`. -/
structure DiffSummary where
  total_files : Nat
  modified_files : Nat
  binary_files : Nat
  total_added : Nat
  total_removed : Nat
  net_change : Int
deriving DecidableEq

/-- `FocusedReviewResult` from `git/focused_review.py`
(`commit_message_suggestions` is outside every claim and omitted). -/
structure FocusedReviewResult where
  diff_summary : DiffSummary
  issues : List FocusedIssue
  suggestions : List Suggestion
  files_reviewed : Nat
  lines_reviewed : Nat
deriving DecidableEq

/-- `_find_line_context`: the first diff line whose `new_line_number`
equals the requested line, defaulting to a context classification. -/
def find_line_context (fd : FileDiff) (line_number : Nat) :
    ChangeType × Option Nat :=
  match ((fd.hunks.map DiffHunk.lines).flatten).find?
      (fun dl => decide (dl.new_line_number = some line_number)) with
  | some dl => (dl.change_type, dl.old_line_number)
  | none => (ChangeType.modified, none)

/-- Right-aligned width-3 rendering of a number, the Python format
spec `3d` used by `_get_code_snippet`. -/
def pad3 (n : Nat) : Line :=
  let s := (Nat.repr n).data
  List.replicate (3 - s.length) ' ' ++ s

/-- `_get_code_snippet` with its default context of 2: the marked,
numbered window of lines around the issue line. -/
def get_code_snippet (content : Line) (line_number : Nat) : Line :=
  let lines := splitLines content
  let start := line_number - 3
  let stop := min lines.length (line_number + 2)
  List.intercalate ("\n".data)
    ((List.range' start (stop - start)).map (fun (i : Nat) =>
      let marker := if (i : Int) = (line_number : Int) - 1
        then "â†’ ".data else "  ".data
      marker ++ pad3 (i + 1) ++ (": ".data) ++ lines.getD i []))

/-- Construction of one `FocusedIssue` inside the filtering loop of
`_analyze_file_changes`. -/
def to_focused_issue (fd : FileDiff) (file_content : Line) (issue : Issue) :
    FocusedIssue :=
  let ctx := find_line_context fd issue.line
  { file_path := fd.new_path, line_number := issue.line,
    old_line_number := ctx.2, change_type := ctx.1,
    issue_type := issue.type, severity := issue.severity,
    message := issue.message, suggestion := issue.suggestion,
    explanation := issue.explanation,
    code_snippet := some (get_code_snippet file_content issue.line) }

/-- The focus-filter loop over analyzer issues (lines 141-159 of
`focused_review.py`): keep an issue exactly when its line is in the
added set. -/
def focused_issue_loop (fd : FileDiff) (file_content : Line)
    (added : Finset Nat) : List Issue → List FocusedIssue
  | [] => []
  | i :: rest =>
      if i.line ∈ added then
        to_focused_issue fd file_content i ::
          focused_issue_loop fd file_content added rest
      else focused_issue_loop fd file_content added rest

/-- The focus-filter loop over analyzer suggestions (lines 162-167). -/
def focused_suggestion_loop (fd : FileDiff) (added : Finset Nat) :
    List Suggestion → List Suggestion
  | [] => []
  | s :: rest =>
      if s.line ∈ added then
        { s with file := fd.new_path, change_context := "newly_added".data } ::
          focused_suggestion_loop fd added rest
      else focused_suggestion_loop fd added rest

/-- `_analyze_file_changes` (lines 108-174).  The filesystem read of
`_get_file_content` is the externally supplied accessor `content_of`
(`None` or an empty string are both falsy and skip the file) and
`core_analyzer.analyze_file` is the externally supplied `analyze`. -/
def analyze_file_changes (content_of : Line → Option Line)
    (analyze : Line → AnalysisResult) (fd : FileDiff) :
    List FocusedIssue × List Suggestion × Nat :=
  if fd.change_type = ChangeType.removed then ([], [], 0)
  else match content_of fd.new_path with
  | none => ([], [], 0)
  | some file_content =>
      if file_content = [] then ([], [], 0)
      else
        let added := (get_changed_lines_for_file fd).1
        if added = ∅ then ([], [], 0)
        else
          let result := analyze fd.new_path
          (focused_issue_loop fd file_content added result.issues,
           focused_suggestion_loop fd added result.suggestions,
           added.card)

/-- The per-file accumulation loop of `analyze_diff` (lines 73-84):
binary files are skipped, all other results are concatenated in file
order and the reviewed line counts summed. -/
def review_fold (content_of : Line → Option Line)
    (analyze : Line → AnalysisResult) :
    List FileDiff → List FocusedIssue × List Suggestion × Nat
  | [] => ([], [], 0)
  | fd :: rest =>
      if fd.is_binary then review_fold content_of analyze rest
      else
        let fr := analyze_file_changes content_of analyze fd
        let rr := review_fold content_of analyze rest
        (fr.1 ++ rr.1, fr.2.1 ++ rr.2.1, fr.2.2 + rr.2.2)

/-- `analyze_diff` (lines 52-106): parse the diff, fold the per-file
analysis over its files, and assemble the summary and counters. -/
def analyze_diff (diff_text : String) (content_of : Line → Option Line)
    (analyze : Line → AnalysisResult) : FocusedReviewResult :=
  let dr := parse_diff diff_text
  let acc := review_fold content_of analyze dr.files
  { diff_summary :=
      { total_files := dr.files.length,
        modified_files := (dr.files.filter (fun f => !f.is_binary)).length,
        binary_files := (dr.files.filter (fun f => f.is_binary)).length,
        total_added := dr.total_added,
        total_removed := dr.total_removed,
        net_change := (dr.total_added : Int) - (dr.total_removed : Int) },
    issues := acc.1,
    suggestions := acc.2.1,
    files_reviewed := (dr.files.filter (fun f => !f.is_binary)).length,
    lines_reviewed := acc.2.2 }

/-- Python expressions, the fragment walked by
`PythonComplexityAnalyzer`: `ast.BoolOp` keeps its operand list and
`ast.Compare` the count of its comparison operators. -/
inductive PyExpr where
  | name (s : Line)
  | constant
  | boolOp (values : List PyExpr)
  | compare (left : PyExpr) (ops : Nat) (comparators : List PyExpr)
  | binOp (a b : PyExpr)
  | call (args : List PyExpr)

/-- Python statements, the fragment walked by
`PythonComplexityAnalyzer`; a `try` handler is represented by its body
(the `ast.ExceptHandler` node's children). -/
inductive PyStmt where
  | ifS (test : PyExpr) (body orelse : List PyStmt)
  | whileS (test : PyExpr) (body orelse : List PyStmt)
  | forS (iter : PyExpr) (body orelse : List PyStmt)
  | withS (ctx : PyExpr) (body : List PyStmt)
  | assertS (test : PyExpr)
  | tryS (body : List PyStmt) (handlers : List (List PyStmt))
      (orelse finalbody : List PyStmt)
  | ret (e : PyExpr)
  | exprS (e : PyExpr)
  | assign (e : PyExpr)
  | pass

mutual
/-- Cyclomatic contribution of every node in an expression subtree, as
accumulated by `_calculate_cyclomatic_complexity`'s `ast.walk`: a
`BoolOp` adds `len(values) - 1`, a `Compare` adds `len(ops)`. -/
def exprCC : PyExpr → Nat
  | .name _ => 0
  | .constant => 0
  | .boolOp values => (values.length - 1) + exprListCC values
  | .compare left ops comparators => ops + exprCC left + exprListCC comparators
  | .binOp a b => exprCC a + exprCC b
  | .call args => exprListCC args

/-- Sum of `exprCC` over a list of expressions. -/
def exprListCC : List PyExpr → Nat
  | [] => 0
  | e :: rest => exprCC e + exprListCC rest
end

mutual
/-- Cyclomatic contribution of every node in a statement subtree, as
accumulated by `_calculate_cyclomatic_complexity`'s `ast.walk`:
`If`/`While`/`For` add 1, `With` adds 1, `Assert` adds 1, each
`ExceptHandler` adds 1. -/
def stmtCC : PyStmt → Nat
  | .ifS test body orelse => 1 + exprCC test + stmtListCC body + stmtListCC orelse
  | .whileS test body orelse => 1 + exprCC test + stmtListCC body + stmtListCC orelse
  | .forS iter body orelse => 1 + exprCC iter + stmtListCC body + stmtListCC orelse
  | .withS ctx body => 1 + exprCC ctx + stmtListCC body
  | .assertS test => 1 + exprCC test
  | .tryS body handlers orelse finalbody =>
      stmtListCC body + handlerListCC handlers + stmtListCC orelse +
        stmtListCC finalbody
  | .ret e => exprCC e
  | .exprS e => exprCC e
  | .assign e => exprCC e
  | .pass => 0

/-- Sum of `stmtCC` over a statement list. -/
def stmtListCC : List PyStmt → Nat
  | [] => 0
  | s :: rest => stmtCC s + stmtListCC rest

/-- Sum over `except` clauses: the `ExceptHandler` node itself adds 1,
then its body is walked. -/
def handlerListCC : List (List PyStmt) → Nat
  | [] => 0
  | h :: rest => 1 + stmtListCC h + handlerListCC rest
end

mutual
/-- Cognitive contribution of an expression subtree
(`_calculate_cognitive_complexity`): `BoolOp` and `Compare` each add a
flat 1. -/
def cogExpr : PyExpr → Nat
  | .name _ => 0
  | .constant => 0
  | .boolOp values => 1 + cogExprList values
  | .compare left _ comparators => 1 + cogExpr left + cogExprList comparators
  | .binOp a b => cogExpr a + cogExpr b
  | .call args => cogExprList args

/-- Sum of `cogExpr` over a list of expressions. -/
def cogExprList : List PyExpr → Nat
  | [] => 0
  | e :: rest => cogExpr e + cogExprList rest
end

mutual
/-- Cognitive contribution of a statement subtree at nesting level
`lvl`: `If`/`While`/`For` and each `ExceptHandler` add `1 + lvl` and
raise the level for their children; `With` and `Try` add nothing and
leave the level unchanged. -/
def cogStmt (lvl : Nat) : PyStmt → Nat
  | .ifS test body orelse =>
      1 + lvl + cogExpr test + cogStmtList (lvl + 1) body +
        cogStmtList (lvl + 1) orelse
  | .whileS test body orelse =>
      1 + lvl + cogExpr test + cogStmtList (lvl + 1) body +
        cogStmtList (lvl + 1) orelse
  | .forS iter body orelse =>
      1 + lvl + cogExpr iter + cogStmtList (lvl + 1) body +
        cogStmtList (lvl + 1) orelse
  | .withS ctx body => cogExpr ctx + cogStmtList lvl body
  | .assertS test => cogExpr test
  | .tryS body handlers orelse finalbody =>
      cogStmtList lvl body + cogHandlerList lvl handlers +
        cogStmtList lvl orelse + cogStmtList lvl finalbody
  | .ret e => cogExpr e
  | .exprS e => cogExpr e
  | .assign e => cogExpr e
  | .pass => 0

/-- Sum of `cogStmt` over a statement list. -/
def cogStmtList (lvl : Nat) : List PyStmt → Nat
  | [] => 0
  | s :: rest => cogStmt lvl s + cogStmtList lvl rest

/-- Sum over `except` clauses at level `lvl`. -/
def cogHandlerList (lvl : Nat) : List (List PyStmt) → Nat
  | [] => 0
  | h :: rest => 1 + lvl + cogStmtList (lvl + 1) h + cogHandlerList lvl rest
end

mutual
/-- Maximum nesting depth reached in a statement subtree entered at
depth `d` (`_calculate_nesting_depth`): `If`/`While`/`For`/`With`/`Try`
enter depth `d + 1`; other statements do not nest. -/
def depthStmt (d : Nat) : PyStmt → Nat
  | .ifS _ body orelse =>
      max (d + 1) (max (depthStmtList (d + 1) body) (depthStmtList (d + 1) orelse))
  | .whileS _ body orelse =>
      max (d + 1) (max (depthStmtList (d + 1) body) (depthStmtList (d + 1) orelse))
  | .forS _ body orelse =>
      max (d + 1) (max (depthStmtList (d + 1) body) (depthStmtList (d + 1) orelse))
  | .withS _ body => max (d + 1) (depthStmtList (d + 1) body)
  | .tryS body handlers orelse finalbody =>
      max (d + 1) (max (depthStmtList (d + 1) body)
        (max (depthHandlerList (d + 1) handlers)
          (max (depthStmtList (d + 1) orelse) (depthStmtList (d + 1) finalbody))))
  | .assertS _ => 0
  | .ret _ => 0
  | .exprS _ => 0
  | .assign _ => 0
  | .pass => 0

/-- Maximum of `depthStmt` over a statement list. -/
def depthStmtList (d : Nat) : List PyStmt → Nat
  | [] => 0
  | s :: rest => max (depthStmt d s) (depthStmtList d rest)

/-- Maximum depth over `except` clause bodies (the `ExceptHandler`
node itself does not increase depth). -/
def depthHandlerList (d : Nat) : List (List PyStmt) → Nat
  | [] => 0
  | h :: rest => max (depthStmtList d h) (depthHandlerList d rest)
end

/-- A Python function as seen by `PythonComplexityAnalyzer`: name,
starting line, parameter count, body statements and the raw source
lines of its `lineno..end_lineno` span. -/
structure PyFunc where
  name : Line
  lineno : Nat
  argCount : Nat
  body : List PyStmt
  srcLines : List Line

/-- Python `str.strip` on a line. -/
def pyStrip (l : Line) : Line :=
  ((l.dropWhile Char.isWhitespace).reverse.dropWhile Char.isWhitespace).reverse

/-- `_calculate_function_length`: non-blank, non-comment lines of the
function's span. -/
def calculate_function_length (f : PyFunc) : Nat :=
  (f.srcLines.filter (fun l =>
    let s := pyStrip l
    decide (s ≠ []) && !leadsWith ("#".data) s)).length

/-- `_calculate_cyclomatic_complexity`: base complexity 1 plus the
walked contributions of the function body. -/
def calculate_cyclomatic_complexity (f : PyFunc) : Nat :=
  1 + stmtListCC f.body

/-- `_calculate_cognitive_complexity`: the body visited from nesting
level 0. -/
def calculate_cognitive_complexity (f : PyFunc) : Nat :=
  cogStmtList 0 f.body

/-- `_calculate_nesting_depth`: the body visited from depth 0. -/
def calculate_nesting_depth (f : PyFunc) : Nat :=
  depthStmtList 0 f.body

/-- The configurable thresholds read in `ComplexityChecker.__init__`,
with their source defaults. -/
structure ComplexityThresholds where
  max_cyclomatic : Nat := 10
  max_cognitive : Nat := 15
  max_function_lines : Nat := 50
  max_nesting_depth : Nat := 4
  max_parameters : Nat := 7
deriving DecidableEq

/-- The per-function issue generation of `_check_python_complexity`
(lines 86-135): one issue per metric strictly above its threshold, in
source order. -/
def check_function (cfg : ComplexityThresholds) (f : PyFunc) : List Issue :=
  (if calculate_cyclomatic_complexity f > cfg.max_cyclomatic then
    [{ type := "high_cyclomatic_complexity".data,
       severity := "warning".data,
       message := ("Function '".data ++ f.name ++
         "' has high cyclomatic complexity (".data ++
         (Nat.repr (calculate_cyclomatic_complexity f)).data ++ ")".data),
       line := f.lineno,
       suggestion := "Consider breaking this function into smaller functions".data }]
   else []) ++
  (if calculate_cognitive_complexity f > cfg.max_cognitive then
    [{ type := "high_cognitive_complexity".data,
       severity := "warning".data,
       message := ("Function '".data ++ f.name ++
         "' has high cognitive complexity (".data ++
         (Nat.repr (calculate_cognitive_complexity f)).data ++ ")".data),
       line := f.lineno,
       suggestion := "Consider simplifying the logic or breaking into smaller functions".data }]
   else []) ++
  (if calculate_function_length f > cfg.max_function_lines then
    [{ type := "long_function".data,
       severity := "info".data,
       message := ("Function '".data ++ f.name ++ "' is very long (".data ++
         (Nat.repr (calculate_function_length f)).data ++ " lines)".data),
       line := f.lineno,
       suggestion := "Consider breaking this function into smaller, more focused functions".data }]
   else []) ++
  (if calculate_nesting_depth f > cfg.max_nesting_depth then
    [{ type := "deep_nesting".data,
       severity := "warning".data,
       message := ("Function '".data ++ f.name ++
         "' has deep nesting (depth: ".data ++
         (Nat.repr (calculate_nesting_depth f)).data ++ ")".data),
       line := f.lineno,
       suggestion := "Consider using early returns or extracting nested logic into separate functions".data }]
   else []) ++
  (if f.argCount > cfg.max_parameters then
    [{ type := "too_many_parameters".data,
       severity := "warning".data,
       message := ("Function '".data ++ f.name ++
         "' has too many parameters (".data ++
         (Nat.repr f.argCount).data ++ ")".data),
       line := f.lineno,
       suggestion := "Consider using a configuration object or breaking the function down".data }]
   else [])

mutual
/-- Follows the spec sentence: "add 1 for each branching construct
(if/while/for/except-clause/with-resource/assert) found within the
function" — the branching-construct count of a statement subtree. -/
def spec_branchS : PyStmt → Nat
  | .ifS _ body orelse => 1 + spec_branchList body + spec_branchList orelse
  | .whileS _ body orelse => 1 + spec_branchList body + spec_branchList orelse
  | .forS _ body orelse => 1 + spec_branchList body + spec_branchList orelse
  | .withS _ body => 1 + spec_branchList body
  | .assertS _ => 1
  | .tryS body handlers orelse finalbody =>
      spec_branchList body + spec_branchHandlers handlers +
        spec_branchList orelse + spec_branchList finalbody
  | .ret _ => 0
  | .exprS _ => 0
  | .assign _ => 0
  | .pass => 0

/-- Branching constructs of a statement list, per the spec's words. -/
def spec_branchList : List PyStmt → Nat
  | [] => 0
  | s :: rest => spec_branchS s + spec_branchList rest

/-- Each except-clause is one branching construct, per the spec. -/
def spec_branchHandlers : List (List PyStmt) → Nat
  | [] => 0
  | h :: rest => 1 + spec_branchList h + spec_branchHandlers rest
end

mutual
/-- Follows the spec sentence: "(operands − 1) for each boolean chain" —
boolean-chain decision points of an expression subtree. -/
def spec_boolE : PyExpr → Nat
  | .name _ => 0
  | .constant => 0
  | .boolOp values => (values.length - 1) + spec_boolEList values
  | .compare left _ comparators => spec_boolE left + spec_boolEList comparators
  | .binOp a b => spec_boolE a + spec_boolE b
  | .call args => spec_boolEList args

/-- Boolean-chain points of an expression list. -/
def spec_boolEList : List PyExpr → Nat
  | [] => 0
  | e :: rest => spec_boolE e + spec_boolEList rest
end

mutual
/-- Follows the spec sentence: "one per comparison operator in each
comparison chain" — comparison-operator count of an expression
subtree. -/
def spec_cmpE : PyExpr → Nat
  | .name _ => 0
  | .constant => 0
  | .boolOp values => spec_cmpEList values
  | .compare left ops comparators => ops + spec_cmpE left + spec_cmpEList comparators
  | .binOp a b => spec_cmpE a + spec_cmpE b
  | .call args => spec_cmpEList args

/-- Comparison operators of an expression list. -/
def spec_cmpEList : List PyExpr → Nat
  | [] => 0
  | e :: rest => spec_cmpE e + spec_cmpEList rest
end

mutual
/-- Boolean-chain points occurring anywhere inside a statement. -/
def spec_boolS : PyStmt → Nat
  | .ifS test body orelse => spec_boolE test + spec_boolSList body + spec_boolSList orelse
  | .whileS test body orelse => spec_boolE test + spec_boolSList body + spec_boolSList orelse
  | .forS iter body orelse => spec_boolE iter + spec_boolSList body + spec_boolSList orelse
  | .withS ctx body => spec_boolE ctx + spec_boolSList body
  | .assertS test => spec_boolE test
  | .tryS body handlers orelse finalbody =>
      spec_boolSList body + spec_boolHandlers handlers +
        spec_boolSList orelse + spec_boolSList finalbody
  | .ret e => spec_boolE e
  | .exprS e => spec_boolE e
  | .assign e => spec_boolE e
  | .pass => 0

/-- Boolean-chain points of a statement list. -/
def spec_boolSList : List PyStmt → Nat
  | [] => 0
  | s :: rest => spec_boolS s + spec_boolSList rest

/-- Boolean-chain points of except-clause bodies. -/
def spec_boolHandlers : List (List PyStmt) → Nat
  | [] => 0
  | h :: rest => spec_boolSList h + spec_boolHandlers rest
end

mutual
/-- Comparison operators occurring anywhere inside a statement. -/
def spec_cmpS : PyStmt → Nat
  | .ifS test body orelse => spec_cmpE test + spec_cmpSList body + spec_cmpSList orelse
  | .whileS test body orelse => spec_cmpE test + spec_cmpSList body + spec_cmpSList orelse
  | .forS iter body orelse => spec_cmpE iter + spec_cmpSList body + spec_cmpSList orelse
  | .withS ctx body => spec_cmpE ctx + spec_cmpSList body
  | .assertS test => spec_cmpE test
  | .tryS body handlers orelse finalbody =>
      spec_cmpSList body + spec_cmpHandlers handlers +
        spec_cmpSList orelse + spec_cmpSList finalbody
  | .ret e => spec_cmpE e
  | .exprS e => spec_cmpE e
  | .assign e => spec_cmpE e
  | .pass => 0

/-- Comparison operators of a statement list. -/
def spec_cmpSList : List PyStmt → Nat
  | [] => 0
  | s :: rest => spec_cmpS s + spec_cmpSList rest

/-- Comparison operators of except-clause bodies. -/
def spec_cmpHandlers : List (List PyStmt) → Nat
  | [] => 0
  | h :: rest => spec_cmpSList h + spec_cmpHandlers rest
end

/-- The function of the spec's complexity-thresholding example: eleven
independent `if` branches with plain-name conditions. -/
def eleven_if_func : PyFunc :=
  { name := "f".data,
    lineno := 1,
    argCount := 0,
    body := List.replicate 11 (PyStmt.ifS (PyExpr.name ("a".data)) [PyStmt.pass] []),
    srcLines := "def f():".data ::
      (List.replicate 11 ["    if a:".data, "        pass".data]).flatten }

/-- The values found in the dictionaries that `_deep_merge` operates
on (`_schema_to_dict` output: scalars, enum value strings, lists and
nested dicts). -/
inductive JValue where
  | str (s : Line)
  | bool (b : Bool)
  | num (n : Int)
  | null
  | list (xs : List JValue)
  | obj (fields : List (Line × JValue))

/-- Association-list lookup, the Python `key in result` /
`result[key]` pair on an insertion-ordered dict. -/
def alookup {α : Type} : List (Line × α) → Line → Option α
  | [], _ => none
  | (k, v) :: rest, key => if k = key then some v else alookup rest key

/-- Python dict assignment `result[key] = value`: an existing key keeps
its position, a new key is appended. -/
def aset {α : Type} : List (Line × α) → Line → α → List (Line × α)
  | [], k, v => [(k, v)]
  | (k0, v0) :: rest, k, v =>
      if k0 = k then (k0, v) :: rest else (k0, v0) :: aset rest k v

mutual
/-- `_deep_merge` from `config/config_parser.py` (lines 372-382): walk
the override's items in order, folding each one into the evolving
result. -/
def deep_merge : List (Line × JValue) → List (Line × JValue) → List (Line × JValue)
  | base, [] => base
  | base, (k, v) :: rest => deep_merge (merge_step base k v) rest

/-- One iteration of `_deep_merge`'s loop: when both sides hold a dict
under `k` the merge recurses, otherwise the override's value replaces
the base's. -/
def merge_step (base : List (Line × JValue)) (k : Line) : JValue → List (Line × JValue)
  | JValue.obj o =>
      (match alookup base k with
       | some (JValue.obj b) => aset base k (JValue.obj (deep_merge b o))
       | _ => aset base k (JValue.obj o))
  | v => aset base k v
end

/-- `SeverityLevel` from `config/schema.py`. -/
inductive SeverityLevel where
  | error
  | warning
  | suggestion
  | info
deriving DecidableEq

/-- The `severity_order` ranking used by `RuleFilter` (lines 114-119
of `config/rule_engine.py`). -/
def severity_order : SeverityLevel → Nat
  | SeverityLevel.info => 0
  | SeverityLevel.suggestion => 1
  | SeverityLevel.warning => 2
  | SeverityLevel.error => 3

/-- `FileTypeConfig` from `config/schema.py`. -/
inductive FileTypeConfig where
  | python
  | javascript
  | typescript
  | json
  | yaml
  | markdown
deriving DecidableEq

/-- `RuleConfig` from `config/schema.py` with its field defaults
(`options` is outside every claim and omitted). -/
structure RuleConfig where
  enabled : Bool := true
  severity : SeverityLevel := SeverityLevel.warning
  file_types : Option (List FileTypeConfig) := none
  ignore_patterns : List Line := []
deriving DecidableEq

/-- `CheckerConfig` from `config/schema.py`. -/
structure CheckerConfig where
  enabled : Bool := true
  rules : List (Line × RuleConfig) := []
  severity_override : Option SeverityLevel := none
deriving DecidableEq

/-- The fields of `ConfigSchema` that the rule-engine claims read. -/
structure ConfigSchema where
  checkers : List (Line × CheckerConfig) := []
  severity_threshold : SeverityLevel := SeverityLevel.info
deriving DecidableEq

/-- `RuleContext` restricted to the fields `is_rule_enabled` reads. -/
structure RuleContext where
  file_path : Line := []
  file_type : Option FileTypeConfig := none
deriving DecidableEq

/-- `RuleResult` from `config/rule_engine.py` (metadata omitted). -/
structure RuleResult where
  rule_name : Line
  checker_name : Line
  severity : SeverityLevel
  message : Line := []
  file_path : Line := []
  line_number : Option Nat := none
deriving DecidableEq

/-- `RuleEngine.is_checker_enabled` (lines 157-162): an unconfigured
checker is enabled by default. -/
def is_checker_enabled (cfg : ConfigSchema) (checker_name : Line) : Bool :=
  match alookup cfg.checkers checker_name with
  | none => true
  | some cc => cc.enabled

/-- `RuleEngine.is_rule_enabled` (lines 164-192).  The glob matching
`fnmatch.fnmatch(file_str, pattern)` of the Python standard library is
the externally supplied `fnmatch`.  Python truthiness is preserved: a
`file_types` value of `None` or `[]` imposes no restriction, and the
restriction only applies when the context carries a file type. -/
def is_rule_enabled (fnmatch : Line → Line → Bool) (cfg : ConfigSchema)
    (checker_name rule_name : Line) (ctx : RuleContext) : Bool :=
  if !is_checker_enabled cfg checker_name then false
  else match alookup cfg.checkers checker_name with
  | none => true
  | some cc =>
      match alookup cc.rules rule_name with
      | none => true
      | some rc =>
          if !rc.enabled then false
          else
            let ft_blocked :=
              match rc.file_types, ctx.file_type with
              | some (t :: ts), some ft => !(decide (ft ∈ t :: ts))
              | _, _ => false
            if ft_blocked then false
            else if rc.ignore_patterns.any (fun p => fnmatch ctx.file_path p) then
              false
            else true

/-- `RuleEngine.get_effective_severity` (lines 202-217): a checker-level
`severity_override` wins, otherwise an explicitly configured rule
severity, otherwise the severity the rule itself produced. -/
def get_effective_severity (cfg : ConfigSchema) (checker_name rule_name : Line)
    (default_severity : SeverityLevel) : SeverityLevel :=
  match alookup cfg.checkers checker_name with
  | none => default_severity
  | some cc =>
      match cc.severity_override with
      | some s => s
      | none =>
          match alookup cc.rules rule_name with
          | some rc => rc.severity
          | none => default_severity

/-- `RuleFilter.filter_results_by_severity` (lines 112-125): keep the
results whose severity rank is at least the threshold's rank. -/
def filter_results_by_severity (cfg : ConfigSchema)
    (results : List RuleResult) : List RuleResult :=
  results.filter (fun r =>
    decide (severity_order cfg.severity_threshold ≤ severity_order r.severity))

/-- Follows the claim's words for the refinement comparison of C4: the
classification of a well-formed hunk body by first character, with the
stated counter assignments. -/
def spec_classify_hunk (old_line new_line : Nat) : List Line → List DiffLine
  | [] => []
  | l :: rest =>
      if l.head? = some '+' then
        { line_number := new_line, old_line_number := none,
          new_line_number := some new_line, content := l.drop 1,
          change_type := ChangeType.added } ::
          spec_classify_hunk old_line (new_line + 1) rest
      else if l.head? = some '-' then
        { line_number := old_line, old_line_number := some old_line,
          new_line_number := none, content := l.drop 1,
          change_type := ChangeType.removed } ::
          spec_classify_hunk (old_line + 1) new_line rest
      else
        { line_number := new_line, old_line_number := some old_line,
          new_line_number := some new_line, content := l.drop 1,
          change_type := ChangeType.modified } ::
          spec_classify_hunk (old_line + 1) (new_line + 1) rest

/-- A hunk body with no premature terminator: every line is nonempty
and none of them opens another hunk or file section. -/
def hunk_body_ok (body : List Line) : Prop :=
  ∀ l ∈ body, l ≠ [] ∧ leadsWith ("@@".data) l = false ∧
    leadsWith ("diff --git".data) l = false

/-- The last `new_line_number` assigned in a sequence of diff lines. -/
def last_new_line : List DiffLine → Option Nat
  | [] => none
  | dl :: rest =>
      match last_new_line rest with
      | some n => some n
      | none => dl.new_line_number

/-- The number of body lines belonging to the new file side (added and
context lines, everything not starting with a minus). -/
def new_side_count (body : List Line) : Nat :=
  (body.filter (fun l => !decide (l.head? = some '-'))).length

/-- The lookup behaviour of `_deep_merge`, stated per key for the
characterization of claim C7: an override key wins unless both sides
hold dicts, in which case the merge recurses; absent override keys fall
back to the base. -/
def merged_lookup (o b : Option JValue) : Option JValue :=
  match o, b with
  | some (JValue.obj oo), some (JValue.obj bb) => some (JValue.obj (deep_merge bb oo))
  | some v, _ => some v
  | none, bv => bv

/-- Path lookup through nested config dicts. -/
def jpath (m : List (Line × JValue)) : List Line → Option JValue
  | [] => none
  | [k] => alookup m k
  | k :: rest =>
      match alookup m k with
      | some (JValue.obj m2) => jpath m2 rest
      | _ => none

/-- The per-file reviewing condition that `_analyze_file_changes`
actually applies on a non-binary file: not a deletion, readable
nonempty content, and a nonempty added-line set. -/
def reviewed_file (content_of : Line → Option Line) (f : FileDiff) : Bool :=
  !decide (f.change_type = ChangeType.removed) &&
  (match content_of f.new_path with
   | some c => !decide (c = [])
   | none => false) &&
  !decide ((get_changed_lines_for_file f).1 = ∅)

/-- A file-deletion diff: one non-binary file, nothing reviewable. -/
def deletion_diff : String :=
  "diff --git a/f.py b/f.py\ndeleted file mode 100644\n--- a/f.py\n+++ /dev/null\n@@ -1,2 +0,0 @@\n-x\n-y"

/-- A diff adding lines 10-12 of `f.py`, the spec's focused-filter
example. -/
def add_diff : String :=
  "diff --git a/f.py b/f.py\n--- a/f.py\n+++ b/f.py\n@@ -9,3 +9,6 @@\n line9\n+new10\n+new11\n+new12\n line13\n line14"

/-- Text with no parsable diff section at all. -/
def junk_input : String :=
  "not a diff\n@@ garbage @@\ndiff --git oops\nrandom tail"

/-- The same junk followed by one valid file section. -/
def junk_then_valid : String :=
  "not a diff\n@@ garbage @@\ndiff --git oops\ndiff --git a/f.py b/f.py\n--- a/f.py\n+++ b/f.py\n@@ -1 +1 @@\n-x\n+y"

/-- An empty placeholder `FileDiff`. -/
def empty_file_diff : FileDiff :=
  { old_path := [], new_path := [], change_type := ChangeType.modified,
    hunks := [] }

/-- The file parsed out of `add_diff`. -/
def demo_fd : FileDiff := ((parse_diff add_diff).files).headD empty_file_diff

/-- Fourteen-line file content for `f.py`. -/
def demo_content : Line :=
  "l1\nl2\nl3\nl4\nl5\nl6\nl7\nl8\nl9\nl10\nl11\nl12\nl13\nl14".data

/-- A content accessor returning `demo_content` for every path. -/
def demo_content_of : Line → Option Line := fun _ => some demo_content

/-- An accessor that can read nothing. -/
def no_content : Line → Option Line := fun _ => none

/-- An analyzer producing one finding on added line 11 and one on
untouched line 5. -/
def demo_analysis : Line → AnalysisResult := fun _ =>
  { issues :=
      [{ type := "style".data, severity := "warning".data,
         message := "finding on added line".data, line := 11,
         suggestion := "fix".data },
       { type := "style".data, severity := "warning".data,
         message := "finding on unchanged line".data, line := 5,
         suggestion := "fix".data }],
    suggestions := [] }

/-- An analyzer with no findings. -/
def no_analysis : Line → AnalysisResult := fun _ => { issues := [], suggestions := [] }

/-- The parent config of the spec's merge-determinism example. -/
def security_parent : List (Line × JValue) :=
  [("checkers".data, JValue.obj
     [("security".data, JValue.obj
        [("enabled".data, JValue.bool false),
         ("rules".data, JValue.obj
            [("x".data, JValue.obj
               [("severity".data, JValue.str ("warning".data))])])])])]

/-- The child config of the spec's merge-determinism example. -/
def security_child : List (Line × JValue) :=
  [("checkers".data, JValue.obj
     [("security".data, JValue.obj
        [("enabled".data, JValue.bool true)])])]

/-- A base config carrying one ignore pattern. -/
def base_patterns : List (Line × JValue) :=
  [("ignore_patterns".data, JValue.list [JValue.str ("a".data)])]

/-- An override config carrying a different ignore pattern. -/
def child_patterns : List (Line × JValue) :=
  [("ignore_patterns".data, JValue.list [JValue.str ("b".data)])]

/-- A configured rule restricted to Python files with one ignore
pattern. -/
def demo_rule : RuleConfig :=
  { enabled := true, severity := SeverityLevel.warning,
    file_types := some [FileTypeConfig.python],
    ignore_patterns := ["*.gen.py".data] }

/-- A checker with the demo rule and a severity override. -/
def demo_checker : CheckerConfig :=
  { enabled := true, rules := [("x".data, demo_rule)],
    severity_override := some SeverityLevel.error }

/-- A config with the demo checker. -/
def demo_config : ConfigSchema :=
  { checkers := [("security".data, demo_checker)],
    severity_threshold := SeverityLevel.info }

/-- A Python file context. -/
def demo_ctx : RuleContext :=
  { file_path := "src/a.py".data, file_type := some FileTypeConfig.python }

/-- A glob matcher that matches nothing. -/
def never_match : Line → Line → Bool := fun _ _ => false

/-- A warning-severity rule result. -/
def demo_result : RuleResult :=
  { rule_name := "x".data, checker_name := "security".data,
    severity := SeverityLevel.warning }

/-- A config whose threshold is `info`. -/
def cfg_info : ConfigSchema := { severity_threshold := SeverityLevel.info }

/-- A config whose threshold is `warning`. -/
def cfg_warning : ConfigSchema := { severity_threshold := SeverityLevel.warning }

/-- An empty placeholder `FocusedIssue`. -/
def empty_focused_issue : FocusedIssue :=
  { file_path := [], line_number := 0, old_line_number := none,
    change_type := ChangeType.modified, issue_type := [], severity := [],
    message := [], suggestion := [] }

theorem filter_length_mono {α : Type} (p q : α → Bool)
    (h : ∀ a, p a = true → q a = true) :
    ∀ l : List α, (l.filter p).length ≤ (l.filter q).length := by
  intro l
  induction l with
  | nil => simp
  | cons a t ih =>
      by_cases hp : p a = true
      · have hq := h a hp
        simp [List.filter_cons, hp, hq]
        omega
      · have hp2 : p a = false := by revert hp; cases p a <;> simp
        cases hq : q a <;> simp [List.filter_cons, hp2, hq] <;> omega

/-- C9: the severity filter keeps exactly the results at or above the
threshold, and raising the threshold never increases the number of
surviving results. -/
theorem severity_filter_exact_and_monotone :
    (∀ (cfg : ConfigSchema) (results : List RuleResult) (r : RuleResult),
      r ∈ filter_results_by_severity cfg results ↔
        r ∈ results ∧
          severity_order cfg.severity_threshold ≤ severity_order r.severity) ∧
    (∀ (c1 c2 : ConfigSchema) (results : List RuleResult),
      severity_order c1.severity_threshold ≤ severity_order c2.severity_threshold →
      (filter_results_by_severity c2 results).length ≤
        (filter_results_by_severity c1 results).length) := by
  constructor
  · intro cfg results r
    simp [filter_results_by_severity, List.mem_filter]
  · intro c1 c2 results h
    apply filter_length_mono
    intro a ha
    simp at ha ⊢
    omega

theorem severity_filter_monotone_witness :
    (filter_results_by_severity cfg_warning [demo_result]).length ≤
      (filter_results_by_severity cfg_info [demo_result]).length :=
  severity_filter_exact_and_monotone.2 cfg_info cfg_warning [demo_result] (by decide)

/-- C10: a checker absent from the configuration is enabled by
default, and so is a rule absent from its checker's rules map once the
checker itself is enabled. -/
theorem unconfigured_defaults_enabled :
    (∀ (cfg : ConfigSchema) (checker_name : Line),
      alookup cfg.checkers checker_name = none →
      is_checker_enabled cfg checker_name = true) ∧
    (∀ (fnmatch : Line → Line → Bool) (cfg : ConfigSchema)
        (checker_name rule_name : Line) (ctx : RuleContext),
      is_checker_enabled cfg checker_name = true →
      (∀ cc, alookup cfg.checkers checker_name = some cc →
        alookup cc.rules rule_name = none) →
      is_rule_enabled fnmatch cfg checker_name rule_name ctx = true) := by
  constructor
  · intro cfg checker_name h
    simp [is_checker_enabled, h]
  · intro fnmatch cfg checker_name rule_name ctx hen habs
    unfold is_rule_enabled
    simp [hen]
    cases hcc : alookup cfg.checkers checker_name with
    | none => rfl
    | some cc => simp [habs cc hcc]

theorem unconfigured_defaults_enabled_witness :
    is_checker_enabled demo_config ("style".data) = true ∧
    is_rule_enabled never_match demo_config ("security".data) ("y".data)
      demo_ctx = true := by
  constructor
  · exact unconfigured_defaults_enabled.1 demo_config ("style".data) (by decide)
  · exact unconfigured_defaults_enabled.2 never_match demo_config
      ("security".data) ("y".data) demo_ctx (by decide)
      (fun cc hcc => by
        have : demo_checker = cc := by
          simpa [demo_config, alookup] using hcc
        rw [Eq.symm this]
        decide)

/-- C8: a rule fires only when the checker is enabled, the rule is not
disabled, a declared file-type allow-list admits the file's known type,
and no rule-specific ignore pattern matches; the effective severity is
the checker's override when declared, otherwise the configured rule
severity, otherwise the severity the rule produced. -/
theorem rule_fire_conditions_and_severity :
    (∀ (fnmatch : Line → Line → Bool) (cfg : ConfigSchema)
        (checker_name rule_name : Line) (ctx : RuleContext),
      is_rule_enabled fnmatch cfg checker_name rule_name ctx = true →
        is_checker_enabled cfg checker_name = true ∧
        (∀ cc rc, alookup cfg.checkers checker_name = some cc →
          alookup cc.rules rule_name = some rc →
            rc.enabled = true ∧
            (∀ ts ft, rc.file_types = some ts → ts ≠ [] →
              ctx.file_type = some ft → ft ∈ ts) ∧
            (∀ p ∈ rc.ignore_patterns, fnmatch ctx.file_path p = false))) ∧
    (∀ (cfg : ConfigSchema) (checker_name rule_name : Line)
        (default_severity : SeverityLevel),
      (∀ cc, alookup cfg.checkers checker_name = some cc →
        (∀ s, cc.severity_override = some s →
          get_effective_severity cfg checker_name rule_name default_severity = s) ∧
        (cc.severity_override = none →
          (∀ rc, alookup cc.rules rule_name = some rc →
            get_effective_severity cfg checker_name rule_name default_severity =
              rc.severity) ∧
          (alookup cc.rules rule_name = none →
            get_effective_severity cfg checker_name rule_name default_severity =
              default_severity))) ∧
      (alookup cfg.checkers checker_name = none →
        get_effective_severity cfg checker_name rule_name default_severity =
          default_severity)) := by
  constructor
  · intro fnmatch cfg checker_name rule_name ctx h
    by_cases hen : is_checker_enabled cfg checker_name = true
    · refine ⟨hen, ?_⟩
      intro cc rc hcc hrc
      simp only [is_rule_enabled, hen, hcc, hrc, Bool.not_true,
        Bool.false_eq_true, if_false] at h
      by_cases hrule : rc.enabled = true
      · simp only [hrule, Bool.not_true, Bool.false_eq_true, if_false] at h
        refine ⟨hrule, ?_, ?_⟩
        · intro ts ft hts hne hft
          cases ts with
          | nil => exact absurd rfl hne
          | cons t ts' =>
              simp only [hts, hft] at h
              by_contra hmem
              simp [hmem] at h
        · intro p hp
          by_contra hmatch
          have hm : fnmatch ctx.file_path p = true := by
            revert hmatch; cases fnmatch ctx.file_path p <;> simp
          have hany : rc.ignore_patterns.any (fun q => fnmatch ctx.file_path q) = true := by
            exact List.any_eq_true.mpr ⟨p, hp, hm⟩
          rw [hany] at h
          split at h
          · exact Bool.false_ne_true h
          · simp at h
      · have hrule2 : rc.enabled = false := by
          revert hrule; cases rc.enabled <;> simp
        simp [hrule2] at h
    · have hen2 : is_checker_enabled cfg checker_name = false := by
        revert hen; cases is_checker_enabled cfg checker_name <;> simp
      simp [is_rule_enabled, hen2] at h
  · intro cfg checker_name rule_name default_severity
    constructor
    · intro cc hcc
      constructor
      · intro s hs
        simp [get_effective_severity, hcc, hs]
      · intro hnone
        constructor
        · intro rc hrc
          simp [get_effective_severity, hcc, hnone, hrc]
        · intro hrabs
          simp [get_effective_severity, hcc, hnone, hrabs]
    · intro habs
      simp [get_effective_severity, habs]

theorem rule_fire_conditions_and_severity_witness :
    (is_checker_enabled demo_config ("security".data) = true ∧
      (∀ cc rc, alookup demo_config.checkers ("security".data) = some cc →
        alookup cc.rules ("x".data) = some rc →
          rc.enabled = true ∧
          (∀ ts ft, rc.file_types = some ts → ts ≠ [] →
            demo_ctx.file_type = some ft → ft ∈ ts) ∧
          (∀ p ∈ rc.ignore_patterns, never_match demo_ctx.file_path p = false))) ∧
    get_effective_severity demo_config ("security".data) ("x".data)
      SeverityLevel.warning = SeverityLevel.error :=
  ⟨rule_fire_conditions_and_severity.1 never_match demo_config ("security".data)
      ("x".data) demo_ctx (by decide),
   ((rule_fire_conditions_and_severity.2 demo_config ("security".data) ("x".data)
      SeverityLevel.warning).1 demo_checker (by decide)).1 SeverityLevel.error
      (by decide)⟩

theorem alookup_aset {α : Type} (m : List (Line × α)) (k key : Line) (v : α) :
    alookup (aset m k v) key = if k = key then some v else alookup m key := by
  induction m with
  | nil => simp [aset, alookup]
  | cons h t ih =>
      obtain ⟨k0, v0⟩ := h
      by_cases h0 : k0 = k
      · subst h0
        by_cases h1 : k0 = key <;> simp [aset, alookup, h1]
      · by_cases h1 : k0 = key
        · subst h1
          have h2 : ¬ k = k0 := fun he => h0 he.symm
          simp [aset, alookup, h0, h2]
        · simp [aset, alookup, h0, h1, ih]

theorem alookup_eq_none {α : Type} (m : List (Line × α)) (key : Line)
    (h : key ∉ m.map Prod.fst) : alookup m key = none := by
  induction m with
  | nil => rfl
  | cons hd t ih =>
      obtain ⟨k0, v0⟩ := hd
      simp only [List.map_cons, List.mem_cons, not_or] at h
      have hne : ¬ k0 = key := fun he => h.1 he.symm
      simp [alookup, hne]
      exact ih h.2

theorem alookup_merge_step_ne (base : List (Line × JValue)) (k key : Line)
    (v : JValue) (h : k ≠ key) :
    alookup (merge_step base k v) key = alookup base key := by
  cases v <;> simp only [merge_step] <;>
    first
      | (rw [alookup_aset]; simp [h])
      | (split <;> (rw [alookup_aset]; simp [h]))

theorem alookup_merge_step_eq (base : List (Line × JValue)) (k : Line)
    (v : JValue) :
    alookup (merge_step base k v) k = merged_lookup (some v) (alookup base k) := by
  cases v with
  | obj o =>
      simp only [merge_step]
      cases hb : alookup base k with
      | none => simp [merged_lookup, alookup_aset, hb]
      | some b =>
          cases b <;> simp [merged_lookup, alookup_aset, hb]
  | str s => simp [merge_step, merged_lookup, alookup_aset]
  | bool b => simp [merge_step, merged_lookup, alookup_aset]
  | num n => simp [merge_step, merged_lookup, alookup_aset]
  | list xs => simp [merge_step, merged_lookup, alookup_aset]
  | null => simp [merge_step, merged_lookup, alookup_aset]

theorem deep_merge_lookup (override : List (Line × JValue)) :
    ∀ (base : List (Line × JValue)) (key : Line),
    (override.map Prod.fst).Nodup →
    alookup (deep_merge base override) key =
      merged_lookup (alookup override key) (alookup base key) := by
  induction override with
  | nil => intro base key _; simp [deep_merge, alookup, merged_lookup]
  | cons hd rest ih =>
      obtain ⟨k, v⟩ := hd
      intro base key hnd
      simp only [List.map_cons, List.nodup_cons] at hnd
      obtain ⟨hk, hrest⟩ := hnd
      rw [deep_merge, ih (merge_step base k v) key hrest]
      by_cases hkey : k = key
      · subst hkey
        have h1 : alookup rest k = none := alookup_eq_none rest k hk
        rw [h1, alookup_merge_step_eq]
        have h2 : alookup ((k, v) :: rest) k =
            if k = k then some v else alookup rest k := rfl
        rw [h2, if_pos rfl]
        cases alookup base k <;> rfl
      · rw [alookup_merge_step_ne base k key v hkey]
        have h2 : alookup ((k, v) :: rest) key =
            if k = key then some v else alookup rest key := rfl
        rw [h2, if_neg hkey]

/-- C7 counterexample: `_deep_merge` does not union list fields — the
override's `ignore_patterns` list replaces the base's wholesale, so the
merged value is `[b]`, not the deduplicated union `[a, b]`. -/
theorem deep_merge_replaces_lists_cex :
    alookup (deep_merge base_patterns child_patterns) ("ignore_patterns".data) =
      some (JValue.list [JValue.str ("b".data)]) ∧
    alookup (deep_merge base_patterns child_patterns) ("ignore_patterns".data) ≠
      some (JValue.list [JValue.str ("a".data), JValue.str ("b".data)]) := by
  have h : alookup (deep_merge base_patterns child_patterns)
      ("ignore_patterns".data) = some (JValue.list [JValue.str ("b".data)]) := by
    simp [base_patterns, child_patterns, deep_merge, merge_step, alookup, aset]
  refine ⟨h, ?_⟩
  rw [h]
  intro hc
  simp only [Option.some.injEq, JValue.list.injEq, List.cons.injEq] at hc
  exact List.noConfusion hc.2

/-- C7 (amended): merging child over parent is key-wise — dict values
merge recursively with untouched parent keys surviving, while any
non-dict child value (scalar or list) replaces the parent's value
wholesale, lists included; the spec's security example holds as
stated. -/
theorem deep_merge_amended :
    (∀ (base override : List (Line × JValue)) (key : Line),
      (override.map Prod.fst).Nodup →
      alookup (deep_merge base override) key =
        merged_lookup (alookup override key) (alookup base key)) ∧
    (jpath (deep_merge security_parent security_child)
       ["checkers".data, "security".data, "enabled".data] =
         some (JValue.bool true) ∧
     jpath (deep_merge security_parent security_child)
       ["checkers".data, "security".data, "rules".data, "x".data,
        "severity".data] = some (JValue.str ("warning".data))) := by
  refine ⟨fun base override key h => deep_merge_lookup override base key h, ?_, ?_⟩
  · simp [security_parent, security_child, deep_merge, merge_step, alookup,
      aset, jpath]
  · simp [security_parent, security_child, deep_merge, merge_step, alookup,
      aset, jpath]

theorem deep_merge_amended_witness :
    alookup (deep_merge security_parent security_child) ("checkers".data) =
      merged_lookup (alookup security_child ("checkers".data))
        (alookup security_parent ("checkers".data)) :=
  deep_merge_amended.1 security_parent security_child ("checkers".data)
    (by decide)

mutual
theorem exprCC_decomp : ∀ e : PyExpr, exprCC e = spec_boolE e + spec_cmpE e
  | PyExpr.name s => by simp [exprCC, spec_boolE, spec_cmpE]
  | PyExpr.constant => by simp [exprCC, spec_boolE, spec_cmpE]
  | PyExpr.boolOp values => by
      simp only [exprCC, spec_boolE, spec_cmpE, exprListCC_decomp values]
      omega
  | PyExpr.compare l ops cs => by
      simp only [exprCC, spec_boolE, spec_cmpE, exprCC_decomp l,
        exprListCC_decomp cs]
      omega
  | PyExpr.binOp a b => by
      simp only [exprCC, spec_boolE, spec_cmpE, exprCC_decomp a, exprCC_decomp b]
      omega
  | PyExpr.call args => by
      simp only [exprCC, spec_boolE, spec_cmpE, exprListCC_decomp args]

theorem exprListCC_decomp :
    ∀ l : List PyExpr, exprListCC l = spec_boolEList l + spec_cmpEList l
  | [] => by simp [exprListCC, spec_boolEList, spec_cmpEList]
  | e :: rest => by
      simp only [exprListCC, spec_boolEList, spec_cmpEList, exprCC_decomp e,
        exprListCC_decomp rest]
      omega
end

mutual
theorem stmtCC_decomp :
    ∀ s : PyStmt, stmtCC s = spec_branchS s + spec_boolS s + spec_cmpS s
  | PyStmt.ifS t b e => by
      simp only [stmtCC, spec_branchS, spec_boolS, spec_cmpS, exprCC_decomp t,
        stmtListCC_decomp b, stmtListCC_decomp e]
      omega
  | PyStmt.whileS t b e => by
      simp only [stmtCC, spec_branchS, spec_boolS, spec_cmpS, exprCC_decomp t,
        stmtListCC_decomp b, stmtListCC_decomp e]
      omega
  | PyStmt.forS it b e => by
      simp only [stmtCC, spec_branchS, spec_boolS, spec_cmpS, exprCC_decomp it,
        stmtListCC_decomp b, stmtListCC_decomp e]
      omega
  | PyStmt.withS c b => by
      simp only [stmtCC, spec_branchS, spec_boolS, spec_cmpS, exprCC_decomp c,
        stmtListCC_decomp b]
      omega
  | PyStmt.assertS t => by
      simp only [stmtCC, spec_branchS, spec_boolS, spec_cmpS, exprCC_decomp t]
      omega
  | PyStmt.tryS b hs e f => by
      simp only [stmtCC, spec_branchS, spec_boolS, spec_cmpS,
        stmtListCC_decomp b, handlerListCC_decomp hs, stmtListCC_decomp e,
        stmtListCC_decomp f]
      omega
  | PyStmt.ret e => by
      simp only [stmtCC, spec_branchS, spec_boolS, spec_cmpS, exprCC_decomp e]
      omega
  | PyStmt.exprS e => by
      simp only [stmtCC, spec_branchS, spec_boolS, spec_cmpS, exprCC_decomp e]
      omega
  | PyStmt.assign e => by
      simp only [stmtCC, spec_branchS, spec_boolS, spec_cmpS, exprCC_decomp e]
      omega
  | PyStmt.pass => by simp [stmtCC, spec_branchS, spec_boolS, spec_cmpS]

theorem stmtListCC_decomp :
    ∀ l : List PyStmt,
      stmtListCC l = spec_branchList l + spec_boolSList l + spec_cmpSList l
  | [] => by simp [stmtListCC, spec_branchList, spec_boolSList, spec_cmpSList]
  | s :: rest => by
      simp only [stmtListCC, spec_branchList, spec_boolSList, spec_cmpSList,
        stmtCC_decomp s, stmtListCC_decomp rest]
      omega

theorem handlerListCC_decomp :
    ∀ hs : List (List PyStmt),
      handlerListCC hs =
        spec_branchHandlers hs + spec_boolHandlers hs + spec_cmpHandlers hs
  | [] => by simp [handlerListCC, spec_branchHandlers, spec_boolHandlers,
      spec_cmpHandlers]
  | h :: rest => by
      simp only [handlerListCC, spec_branchHandlers, spec_boolHandlers,
        spec_cmpHandlers, stmtListCC_decomp h, handlerListCC_decomp rest]
      omega
end

/-- C3: cyclomatic complexity is 1 plus one per branching construct,
plus `(operands - 1)` per boolean chain, plus one per comparison
operator; a function of eleven independent `if` branches under the
default thresholds produces exactly one `high_cyclomatic_complexity`
finding reporting complexity 12. -/
theorem cyclomatic_decomposition_and_example :
    (∀ f : PyFunc, calculate_cyclomatic_complexity f =
      1 + spec_branchList f.body + spec_boolSList f.body + spec_cmpSList f.body) ∧
    check_function {} eleven_if_func =
      [{ type := "high_cyclomatic_complexity".data,
         severity := "warning".data,
         message :=
           "Function 'f' has high cyclomatic complexity (12)".data,
         line := 1,
         suggestion :=
           "Consider breaking this function into smaller functions".data }] := by
  constructor
  · intro f
    rw [calculate_cyclomatic_complexity, stmtListCC_decomp f.body]
    omega
  · decide

theorem parse_hunk_lines_spec (body : List Line) :
    ∀ o n, hunk_body_ok body →
      (parse_hunk_lines o n body).1 = spec_classify_hunk o n body := by
  induction body with
  | nil => intro o n _; rfl
  | cons l rest ih =>
      intro o n h
      obtain ⟨h1, h2, h3⟩ := h l (List.mem_cons_self l rest)
      have hrest : hunk_body_ok rest := fun x hx => h x (List.mem_cons_of_mem l hx)
      cases l with
      | nil => exact absurd rfl h1
      | cons c cs =>
          by_cases hplus : c = '+'
          · subst hplus
            simp [parse_hunk_lines, spec_classify_hunk, h2, h3, ih _ _ hrest]
          · by_cases hminus : c = '-'
            · subst hminus
              simp [parse_hunk_lines, spec_classify_hunk, h2, h3, hplus,
                ih _ _ hrest]
            · simp [parse_hunk_lines, spec_classify_hunk, h2, h3, hplus,
                hminus, ih _ _ hrest]

theorem spec_classify_last_new (body : List Line) :
    ∀ o n, last_new_line (spec_classify_hunk o n body) =
      if new_side_count body = 0 then none
      else some (n + new_side_count body - 1) := by
  induction body with
  | nil => intro o n; simp [spec_classify_hunk, last_new_line, new_side_count]
  | cons l rest ih =>
      intro o n
      by_cases hminus : l.head? = some '-'
      · have hcnt : new_side_count (l :: rest) = new_side_count rest := by
          simp [new_side_count, List.filter_cons, hminus]
        by_cases hplus : l.head? = some '+'
        · rw [hplus] at hminus
          have hpm : ('+' : Char) = '-' := Option.some.inj hminus
          exact absurd hpm (by decide)
        · rw [hcnt]
          simp only [spec_classify_hunk, hplus, hminus, if_true, if_false,
            last_new_line, ih (o + 1) n]
          by_cases hz : new_side_count rest = 0 <;> simp [hz]
      · have hcnt : new_side_count (l :: rest) = new_side_count rest + 1 := by
          simp [new_side_count, List.filter_cons, hminus]
        rw [hcnt]
        by_cases hplus : l.head? = some '+'
        · simp only [spec_classify_hunk, hplus, if_true, last_new_line,
            ih o (n + 1)]
          by_cases hz : new_side_count rest = 0 <;> simp [hz]
        · simp only [spec_classify_hunk, hplus, hminus, if_true, if_false,
            last_new_line, ih (o + 1) (n + 1)]
          by_cases hz : new_side_count rest = 0 <;> simp [hz]

theorem spec_classify_shape (body : List Line) :
    ∀ o n dl, dl ∈ spec_classify_hunk o n body →
      (dl.change_type = ChangeType.added →
        dl.old_line_number = none ∧ dl.new_line_number = some dl.line_number) ∧
      (dl.change_type = ChangeType.removed →
        dl.new_line_number = none ∧ dl.old_line_number = some dl.line_number) ∧
      (dl.change_type = ChangeType.modified →
        (∃ m, dl.old_line_number = some m) ∧
          dl.new_line_number = some dl.line_number) := by
  induction body with
  | nil => intro o n dl h; exact absurd h (List.not_mem_nil dl)
  | cons l rest ih =>
      intro o n dl h
      by_cases hplus : l.head? = some '+'
      · simp only [spec_classify_hunk, hplus, if_true] at h
        rcases List.mem_cons.mp h with he | ht
        · subst he; refine ⟨fun _ => ⟨rfl, rfl⟩, fun hc => ?_, fun hc => ?_⟩ <;>
            exact ChangeType.noConfusion hc
        · exact ih _ _ dl ht
      · by_cases hminus : l.head? = some '-'
        · simp only [spec_classify_hunk, hplus, hminus, if_true, if_false] at h
          rcases List.mem_cons.mp h with he | ht
          · subst he; refine ⟨fun hc => ?_, fun _ => ⟨rfl, rfl⟩, fun hc => ?_⟩ <;>
              exact ChangeType.noConfusion hc
          · exact ih _ _ dl ht
        · simp only [spec_classify_hunk, hplus, hminus, if_false] at h
          rcases List.mem_cons.mp h with he | ht
          · subst he; refine ⟨fun hc => ?_, fun hc => ?_, fun _ => ⟨⟨o, rfl⟩, rfl⟩⟩ <;>
              exact ChangeType.noConfusion hc
          · exact ih _ _ dl ht

/-- C4: on a well-formed hunk body the parser produces exactly the
first-character classification with the stated counter assignments
(Added: new set, old unset; Removed: old set, new unset; Context:
both set), and the last `new_line_number` assigned equals
`new_start + new_count - 1` when the body's new-side line count matches
`new_count`. -/
theorem hunk_classification_and_last_line :
    ∀ (body : List Line) (old_start new_start new_count : Nat),
      hunk_body_ok body →
      (parse_hunk_lines old_start new_start body).1 =
        spec_classify_hunk old_start new_start body ∧
      (∀ dl ∈ (parse_hunk_lines old_start new_start body).1,
        (dl.change_type = ChangeType.added →
          dl.old_line_number = none ∧
            dl.new_line_number = some dl.line_number) ∧
        (dl.change_type = ChangeType.removed →
          dl.new_line_number = none ∧
            dl.old_line_number = some dl.line_number) ∧
        (dl.change_type = ChangeType.modified →
          (∃ m, dl.old_line_number = some m) ∧
            dl.new_line_number = some dl.line_number)) ∧
      (new_side_count body = new_count → 0 < new_count →
        last_new_line (parse_hunk_lines old_start new_start body).1 =
          some (new_start + new_count - 1)) := by
  intro body old_start new_start new_count h
  have hspec := parse_hunk_lines_spec body old_start new_start h
  refine ⟨hspec, ?_, ?_⟩
  · intro dl hdl
    rw [hspec] at hdl
    exact spec_classify_shape body old_start new_start dl hdl
  · intro hcount hpos
    rw [hspec, spec_classify_last_new body old_start new_start, hcount]
    have : ¬ new_count = 0 := by omega
    simp [this]

theorem hunk_classification_witness :
    (parse_hunk_lines 5 10 ["+a".data, " b".data, "-c".data]).1 =
      spec_classify_hunk 5 10 ["+a".data, " b".data, "-c".data] ∧
    last_new_line (parse_hunk_lines 5 10 ["+a".data, " b".data, "-c".data]).1 =
      some 11 := by
  have h := hunk_classification_and_last_line
    ["+a".data, " b".data, "-c".data] 5 10 2
    (by unfold hunk_body_ok; decide)
  exact ⟨h.1, h.2.2 (by decide) (by decide)⟩

theorem changed_line_step_mem (acc : Finset Nat × Finset Nat) (dl : DiffLine)
    (n : Nat) :
    (n ∈ (changed_line_step acc dl).1 ↔
      n ∈ acc.1 ∨ (dl.change_type = ChangeType.added ∧
        dl.new_line_number = some n ∧ n ≠ 0)) ∧
    (n ∈ (changed_line_step acc dl).2 ↔
      n ∈ acc.2 ∨ (dl.change_type = ChangeType.removed ∧
        dl.old_line_number = some n ∧ n ≠ 0)) := by
  obtain ⟨ln, ol, nl, ct, cty⟩ := dl
  cases cty <;> cases nl <;> cases ol <;>
    simp only [changed_line_step] <;>
    simp [Finset.mem_insert] <;>
    split_ifs <;>
    simp_all <;>
    aesop

theorem changed_fold_mem (ls : List DiffLine) :
    ∀ (acc : Finset Nat × Finset Nat) (n : Nat),
      (n ∈ (ls.foldl changed_line_step acc).1 ↔
        n ∈ acc.1 ∨ ∃ dl ∈ ls, dl.change_type = ChangeType.added ∧
          dl.new_line_number = some n ∧ n ≠ 0) ∧
      (n ∈ (ls.foldl changed_line_step acc).2 ↔
        n ∈ acc.2 ∨ ∃ dl ∈ ls, dl.change_type = ChangeType.removed ∧
          dl.old_line_number = some n ∧ n ≠ 0) := by
  induction ls with
  | nil => intro acc n; simp
  | cons dl t ih =>
      intro acc n
      rw [List.foldl_cons]
      constructor
      · rw [(ih (changed_line_step acc dl) n).1,
          (changed_line_step_mem acc dl n).1]
        simp only [List.mem_cons]
        constructor
        · rintro ((h | h) | ⟨x, hx, hprop⟩)
          · exact Or.inl h
          · exact Or.inr ⟨dl, Or.inl rfl, h⟩
          · exact Or.inr ⟨x, Or.inr hx, hprop⟩
        · rintro (h | ⟨x, (rfl | hx), hprop⟩)
          · exact Or.inl (Or.inl h)
          · exact Or.inl (Or.inr hprop)
          · exact Or.inr ⟨x, hx, hprop⟩
      · rw [(ih (changed_line_step acc dl) n).2,
          (changed_line_step_mem acc dl n).2]
        simp only [List.mem_cons]
        constructor
        · rintro ((h | h) | ⟨x, hx, hprop⟩)
          · exact Or.inl h
          · exact Or.inr ⟨dl, Or.inl rfl, h⟩
          · exact Or.inr ⟨x, Or.inr hx, hprop⟩
        · rintro (h | ⟨x, (rfl | hx), hprop⟩)
          · exact Or.inl (Or.inl h)
          · exact Or.inl (Or.inr hprop)
          · exact Or.inr ⟨x, hx, hprop⟩

/-- C6: for a `FileDiff` whose set line numbers are genuine (nonzero)
line numbers, `get_changed_lines_for_file` returns exactly the set of
`new_line_number` values of its Added lines and exactly the set of
`old_line_number` values of its Removed lines, as a pure function of
the hunks. -/
theorem changed_lines_exact :
    ∀ fd : FileDiff,
      (∀ dl ∈ (fd.hunks.map DiffHunk.lines).flatten,
        (dl.change_type = ChangeType.added → dl.new_line_number ≠ some 0) ∧
        (dl.change_type = ChangeType.removed → dl.old_line_number ≠ some 0)) →
      (∀ n, n ∈ (get_changed_lines_for_file fd).1 ↔
        ∃ dl ∈ (fd.hunks.map DiffHunk.lines).flatten,
          dl.change_type = ChangeType.added ∧ dl.new_line_number = some n) ∧
      (∀ n, n ∈ (get_changed_lines_for_file fd).2 ↔
        ∃ dl ∈ (fd.hunks.map DiffHunk.lines).flatten,
          dl.change_type = ChangeType.removed ∧ dl.old_line_number = some n) := by
  intro fd h
  constructor
  · intro n
    rw [get_changed_lines_for_file,
      (changed_fold_mem ((fd.hunks.map DiffHunk.lines).flatten) (∅, ∅) n).1]
    simp only [Finset.not_mem_empty, false_or]
    constructor
    · rintro ⟨dl, hdl, ha, hn, _⟩
      exact ⟨dl, hdl, ha, hn⟩
    · rintro ⟨dl, hdl, ha, hn⟩
      refine ⟨dl, hdl, ha, hn, ?_⟩
      intro h0
      subst h0
      exact (h dl hdl).1 ha hn
  · intro n
    rw [get_changed_lines_for_file,
      (changed_fold_mem ((fd.hunks.map DiffHunk.lines).flatten) (∅, ∅) n).2]
    simp only [Finset.not_mem_empty, false_or]
    constructor
    · rintro ⟨dl, hdl, ha, hn, _⟩
      exact ⟨dl, hdl, ha, hn⟩
    · rintro ⟨dl, hdl, ha, hn⟩
      refine ⟨dl, hdl, ha, hn, ?_⟩
      intro h0
      subst h0
      exact (h dl hdl).2 ha hn

theorem changed_lines_exact_witness :
    11 ∈ (get_changed_lines_for_file demo_fd).1 ↔
      ∃ dl ∈ (demo_fd.hunks.map DiffHunk.lines).flatten,
        dl.change_type = ChangeType.added ∧ dl.new_line_number = some 11 :=
  (changed_lines_exact demo_fd (by decide)).1 11

theorem parse_file_diff_paths (header : Line) (rest : List Line)
    (fd : FileDiff) (r : List Line)
    (h : parse_file_diff header rest = (some fd, r)) :
    fd.old_path ≠ [] ∧ fd.new_path ≠ [] := by
  simp only [parse_file_diff] at h
  split at h
  · split at h
    · exact absurd (congrArg Prod.fst h) (by simp)
    · rename_i hne
      have h2 := Option.some.inj (congrArg Prod.fst h)
      push_neg at hne
      rw [← h2]
      exact ⟨hne.1, hne.2⟩
  · exact absurd (congrArg Prod.fst h) (by simp)

theorem parse_diff_files_paths : ∀ (fuel : Nat) (ls : List Line),
    ∀ fd ∈ parse_diff_files fuel ls, fd.old_path ≠ [] ∧ fd.new_path ≠ [] := by
  intro fuel
  induction fuel with
  | zero => intro ls fd h; simp [parse_diff_files] at h
  | succ fuel ih =>
      intro ls fd h
      cases ls with
      | nil => simp [parse_diff_files] at h
      | cons l rest =>
          rw [parse_diff_files] at h
          by_cases hl : leadsWith ("diff --git".data) l = true
          · simp only [hl, if_true] at h
            rcases hpf : parse_file_diff l rest with ⟨ofd, r⟩
            rw [hpf] at h
            cases ofd with
            | some fd2 =>
                rcases List.mem_cons.mp h with he | ht
                · subst he
                  exact parse_file_diff_paths l rest fd r hpf
                · exact ih r fd ht
            | none => exact ih r fd h
          · have hl2 : leadsWith ("diff --git".data) l = false := by
              revert hl; cases leadsWith ("diff --git".data) l <;> simp
            simp only [hl2, Bool.false_eq_true, if_false] at h
            exact ih rest fd h

/-- C5: `parse_diff` is a total function on arbitrary text — malformed
segments are skipped and parsing continues — and every `FileDiff` it
emits carries resolved (nonempty) old and new paths; on pure junk it
returns an empty file list, and junk preceding a valid file section
does not prevent that section from parsing. -/
theorem parse_diff_best_effort :
    (∀ s : String, ∀ fd ∈ (parse_diff s).files,
      fd.old_path ≠ [] ∧ fd.new_path ≠ []) ∧
    (parse_diff junk_input).files = [] ∧
    (parse_diff junk_then_valid).files.map FileDiff.new_path = ["f.py".data] := by
  refine ⟨?_, by decide, by decide⟩
  intro s fd h
  exact parse_diff_files_paths _ _ fd h

theorem focused_issue_loop_eq (fd : FileDiff) (c : Line) (added : Finset Nat) :
    ∀ l : List Issue,
      focused_issue_loop fd c added l =
        (l.filter (fun i => decide (i.line ∈ added))).map
          (to_focused_issue fd c) := by
  intro l
  induction l with
  | nil => rfl
  | cons i rest ih =>
      by_cases hi : i.line ∈ added
      · simp [focused_issue_loop, List.filter_cons, hi, ih]
      · simp [focused_issue_loop, List.filter_cons, hi, ih]

theorem focused_issue_loop_mem (fd : FileDiff) (c : Line) (added : Finset Nat) :
    ∀ (l : List Issue) (fi : FocusedIssue),
      fi ∈ focused_issue_loop fd c added l →
      fi.file_path = fd.new_path ∧ fi.line_number ∈ added := by
  intro l
  induction l with
  | nil => intro fi h; simp [focused_issue_loop] at h
  | cons i rest ih =>
      intro fi h
      by_cases hi : i.line ∈ added
      · simp only [focused_issue_loop, if_pos hi] at h
        rcases List.mem_cons.mp h with he | ht
        · subst he; exact ⟨rfl, hi⟩
        · exact ih fi ht
      · simp only [focused_issue_loop, if_neg hi] at h
        exact ih fi h

theorem analyze_file_changes_issues_mem (content_of : Line → Option Line)
    (analyze : Line → AnalysisResult) (fd : FileDiff) :
    ∀ fi ∈ (analyze_file_changes content_of analyze fd).1,
      fi.file_path = fd.new_path ∧
        fi.line_number ∈ (get_changed_lines_for_file fd).1 := by
  intro fi h
  by_cases h1 : fd.change_type = ChangeType.removed
  · simp [analyze_file_changes, h1] at h
  · rw [analyze_file_changes, if_neg h1] at h
    cases hco : content_of fd.new_path with
    | none => rw [hco] at h; simp at h
    | some c =>
        rw [hco] at h
        dsimp only at h
        by_cases h2 : c = []
        · rw [if_pos h2] at h; simp at h
        · rw [if_neg h2] at h
          by_cases h3 : (get_changed_lines_for_file fd).1 = ∅
          · rw [if_pos h3] at h; simp at h
          · rw [if_neg h3] at h
            exact focused_issue_loop_mem fd c _ _ fi h

theorem review_fold_issues_mem (content_of : Line → Option Line)
    (analyze : Line → AnalysisResult) :
    ∀ (files : List FileDiff) (fi : FocusedIssue),
      fi ∈ (review_fold content_of analyze files).1 →
      ∃ fd ∈ files, fi.file_path = fd.new_path ∧
        fi.line_number ∈ (get_changed_lines_for_file fd).1 := by
  intro files
  induction files with
  | nil => intro fi h; simp [review_fold] at h
  | cons fd rest ih =>
      intro fi h
      by_cases hb : fd.is_binary = true
      · rw [review_fold, if_pos hb] at h
        obtain ⟨fd2, hfd2, hp⟩ := ih fi h
        exact ⟨fd2, List.mem_cons_of_mem fd hfd2, hp⟩
      · have hb2 : fd.is_binary = false := by
          revert hb; cases fd.is_binary <;> simp
        rw [review_fold, hb2] at h
        simp only [Bool.false_eq_true, if_false] at h
        rcases List.mem_append.mp h with hl | hr
        · have := analyze_file_changes_issues_mem content_of analyze fd fi hl
          exact ⟨fd, List.mem_cons_self fd rest, this⟩
        · obtain ⟨fd2, hfd2, hp⟩ := ih fi hr
          exact ⟨fd2, List.mem_cons_of_mem fd hfd2, hp⟩

/-- C1: a finding is absent from `analyze_diff`'s issue list unless its
line is in the Added-line set of a file of the parsed diff, and on a
reviewed file the surviving findings are exactly the analyzer findings
whose line is a member of the Added-line set. -/
theorem focused_filter_iff :
    (∀ (diff_text : String) (content_of : Line → Option Line)
        (analyze : Line → AnalysisResult) (fi : FocusedIssue),
      fi ∈ (analyze_diff diff_text content_of analyze).issues →
      ∃ fd ∈ (parse_diff diff_text).files,
        fi.file_path = fd.new_path ∧
        fi.line_number ∈ (get_changed_lines_for_file fd).1) ∧
    (∀ (content_of : Line → Option Line) (analyze : Line → AnalysisResult)
        (fd : FileDiff) (c : Line),
      fd.change_type ≠ ChangeType.removed →
      content_of fd.new_path = some c → c ≠ [] →
      (get_changed_lines_for_file fd).1 ≠ ∅ →
      (analyze_file_changes content_of analyze fd).1 =
        ((analyze fd.new_path).issues.filter
          (fun i => decide (i.line ∈ (get_changed_lines_for_file fd).1))).map
          (to_focused_issue fd c)) := by
  constructor
  · intro dt co an fi h
    exact review_fold_issues_mem co an (parse_diff dt).files fi h
  · intro co an fd c h1 h2 h3 h4
    rw [analyze_file_changes, if_neg h1, h2]
    dsimp only
    rw [if_neg h3, if_neg h4]
    exact focused_issue_loop_eq fd c _ (an fd.new_path).issues

theorem focused_filter_iff_witness :
    (∃ fd ∈ (parse_diff add_diff).files,
      ((analyze_diff add_diff demo_content_of demo_analysis).issues.headD
          empty_focused_issue).file_path = fd.new_path ∧
      ((analyze_diff add_diff demo_content_of demo_analysis).issues.headD
          empty_focused_issue).line_number ∈
        (get_changed_lines_for_file fd).1) ∧
    (analyze_file_changes demo_content_of demo_analysis demo_fd).1 =
      ((demo_analysis demo_fd.new_path).issues.filter
        (fun i => decide (i.line ∈ (get_changed_lines_for_file demo_fd).1))).map
        (to_focused_issue demo_fd demo_content) :=
  ⟨focused_filter_iff.1 add_diff demo_content_of demo_analysis
      ((analyze_diff add_diff demo_content_of demo_analysis).issues.headD
        empty_focused_issue) (by decide),
   focused_filter_iff.2 demo_content_of demo_analysis demo_fd demo_content
    (by decide) rfl (by decide) (by decide)⟩

theorem analyze_file_changes_lines (content_of : Line → Option Line)
    (analyze : Line → AnalysisResult) (fd : FileDiff) :
    (analyze_file_changes content_of analyze fd).2.2 =
      if reviewed_file content_of fd then
        (get_changed_lines_for_file fd).1.card
      else 0 := by
  by_cases h1 : fd.change_type = ChangeType.removed
  · simp [analyze_file_changes, reviewed_file, h1]
  · rw [analyze_file_changes, if_neg h1]
    cases hco : content_of fd.new_path with
    | none => simp [reviewed_file, h1, hco]
    | some c =>
        dsimp only
        by_cases h2 : c = []
        · rw [if_pos h2]
          simp [reviewed_file, h1, hco, h2]
        · rw [if_neg h2]
          by_cases h3 : (get_changed_lines_for_file fd).1 = ∅
          · rw [if_pos h3]
            simp [reviewed_file, h1, hco, h2, h3]
          · rw [if_neg h3]
            simp [reviewed_file, h1, hco, h2, h3]

theorem review_fold_lines (content_of : Line → Option Line)
    (analyze : Line → AnalysisResult) :
    ∀ files : List FileDiff,
      (review_fold content_of analyze files).2.2 =
        ((files.filter (fun f => !f.is_binary && reviewed_file content_of f)).map
          (fun f => (get_changed_lines_for_file f).1.card)).sum := by
  intro files
  induction files with
  | nil => rfl
  | cons fd rest ih =>
      by_cases hb : fd.is_binary = true
      · rw [review_fold, if_pos hb]
        simp [List.filter_cons, hb, ih]
      · have hb2 : fd.is_binary = false := by
          revert hb; cases fd.is_binary <;> simp
        rw [review_fold, hb2]
        simp only [Bool.false_eq_true, if_false]
        by_cases hr : reviewed_file content_of fd = true
        · simp [List.filter_cons, hb2, hr, analyze_file_changes_lines, ih]
        · have hr2 : reviewed_file content_of fd = false := by
            revert hr; cases reviewed_file content_of fd <;> simp
          simp [List.filter_cons, hb2, hr2, analyze_file_changes_lines, ih]

/-- C2 counterexample: on a diff deleting one non-binary file,
`analyze_diff` reports `files_reviewed = 1` although the number of
files satisfying the claim's reviewed condition (non-binary, change
kind not Removed, nonempty Added-line set) is 0. -/
theorem files_reviewed_counts_all_nonbinary_cex :
    (analyze_diff deletion_diff no_content no_analysis).files_reviewed = 1 ∧
    ((parse_diff deletion_diff).files.filter (fun f =>
      !f.is_binary && !decide (f.change_type = ChangeType.removed) &&
        !decide ((get_changed_lines_for_file f).1 = ∅))).length = 0 ∧
    (1 : Nat) ≠ 0 := by
  refine ⟨by decide, by decide, by decide⟩

/-- C2 (amended): `files_reviewed` counts every non-binary file of the
parsed diff — Removed files and files with nothing to review
included — while `lines_reviewed` sums the Added-line-set sizes over
exactly the files that were actually reviewed: non-binary, not
Removed, readable nonempty content, and a nonempty Added-line set. -/
theorem analyze_diff_counts_amended :
    ∀ (diff_text : String) (content_of : Line → Option Line)
      (analyze : Line → AnalysisResult),
      (analyze_diff diff_text content_of analyze).files_reviewed =
        ((parse_diff diff_text).files.filter (fun f => !f.is_binary)).length ∧
      (analyze_diff diff_text content_of analyze).lines_reviewed =
        (((parse_diff diff_text).files.filter
            (fun f => !f.is_binary && reviewed_file content_of f)).map
          (fun f => (get_changed_lines_for_file f).1.card)).sum := by
  intro dt co an
  exact ⟨rfl, review_fold_lines co an (parse_diff dt).files⟩

theorem parse_diff_best_effort_witness :
    ((parse_diff junk_then_valid).files.headD empty_file_diff).old_path ≠ [] ∧
    ((parse_diff junk_then_valid).files.headD empty_file_diff).new_path ≠ [] :=
  parse_diff_best_effort.1 junk_then_valid
    ((parse_diff junk_then_valid).files.headD empty_file_diff) (by decide)
